import Mathlib

set_option maxRecDepth 100000

/-!
Verification development for the globalthreatmap event pipeline.

Shallow embedding of:
* the location resolver (`geocodeLocation`, `extractLocationsFromText`,
  `geocodeLocationsFromText` from `lib/geocoding.ts` and `lib/ai-classifier.ts`),
* the event assembler (`processSearchResults` from `app/api/events/route.ts`),
* the events store (`applyFilters` and the mutating actions of the zustand store),
* the conflict stream relay (`streamCountryConflicts` from `lib/valyu.ts`),
* the deep-research poll loop (`deepResearchViaProxy` from `lib/valyu.ts`).

Modelling conventions:
* JavaScript numbers holding coordinates are embedded as rationals; the literals
  in the static gazetteer are exact decimal literals.
* Timestamps are embedded as integers (epoch milliseconds). The code stores ISO
  strings and compares them through `new Date(x).getTime()`; the embedding works
  directly with the parsed value.
* Remote calls (the AI classifier, the Mapbox geocoder, the answer provider, the
  deep-research status endpoint) are oracles passed in as function arguments, so
  the theorems quantify over every provider behaviour.
* `cleanContent`, `extractEntities`, `extractKeywords` and the regex pattern
  scanner of `extractLocationsFromText` are pure text functions whose internals
  no claim depends on; they are likewise taken as parameters, so the theorems
  hold for every choice of them.
-/

/-- Geographic location record (`types`: latitude, longitude, placeName, country?, region?). -/
structure GeoLocation where
  latitude : ℚ
  longitude : ℚ
  placeName : String
  country : Option String := none
  region : Option String := none
deriving DecidableEq, Repr

/-- One gazetteer entry of `KNOWN_LOCATIONS` in `lib/geocoding.ts`: lat, lng, country. -/
structure GazetteerEntry where
  lat : ℚ
  lng : ℚ
  country : String
deriving DecidableEq, Repr

/-- Slice of the `KNOWN_LOCATIONS` table (split only to keep elaboration fast). -/
def gazChunk0 : List (String × GazetteerEntry) := [
  ("Ukraine", GazetteerEntry.mk (48.3794) (31.1656) "Ukraine"),
  ("Kyiv", GazetteerEntry.mk (50.4501) (30.5234) "Ukraine"),
  ("Kharkiv", GazetteerEntry.mk (49.9935) (36.2304) "Ukraine"),
  ("Mariupol", GazetteerEntry.mk (47.0951) (37.5497) "Ukraine"),
  ("Odesa", GazetteerEntry.mk (46.4825) (30.7233) "Ukraine"),
  ("Crimea", GazetteerEntry.mk (44.9521) (34.1024) "Ukraine"),
  ("Donbas", GazetteerEntry.mk (48.0159) (37.8028) "Ukraine"),
  ("Moscow", GazetteerEntry.mk (55.7558) (37.6173) "Russia"),
  ("Russia", GazetteerEntry.mk (61.524) (105.3188) "Russia"),
  ("St. Petersburg", GazetteerEntry.mk (59.9311) (30.3609) "Russia"),
  ("Gaza", GazetteerEntry.mk (31.3547) (34.3088) "Palestine"),
  ("West Bank", GazetteerEntry.mk (31.9474) (35.2272) "Palestine"),
  ("Israel", GazetteerEntry.mk (31.0461) (34.8516) "Israel"),
  ("Jerusalem", GazetteerEntry.mk (31.7683) (35.2137) "Israel"),
  ("Tel Aviv", GazetteerEntry.mk (32.0853) (34.7818) "Israel"),
  ("Tehran", GazetteerEntry.mk (35.6892) (51.389) "Iran"),
  ("Iran", GazetteerEntry.mk (32.4279) (53.688) "Iran"),
  ("Syria", GazetteerEntry.mk (34.8021) (38.9968) "Syria"),
  ("Damascus", GazetteerEntry.mk (33.5138) (36.2765) "Syria"),
  ("Aleppo", GazetteerEntry.mk (36.2021) (37.1343) "Syria")]

/-- Slice of the `KNOWN_LOCATIONS` table (split only to keep elaboration fast). -/
def gazChunk1 : List (String × GazetteerEntry) := [
  ("Yemen", GazetteerEntry.mk (15.5527) (48.5164) "Yemen"),
  ("Sanaa", GazetteerEntry.mk (15.3694) (44.191) "Yemen"),
  ("Iraq", GazetteerEntry.mk (33.2232) (43.6793) "Iraq"),
  ("Baghdad", GazetteerEntry.mk (33.3152) (44.3661) "Iraq"),
  ("Lebanon", GazetteerEntry.mk (33.8547) (35.8623) "Lebanon"),
  ("Beirut", GazetteerEntry.mk (33.8938) (35.5018) "Lebanon"),
  ("Jordan", GazetteerEntry.mk (30.5852) (36.2384) "Jordan"),
  ("Amman", GazetteerEntry.mk (31.9454) (35.9284) "Jordan"),
  ("Saudi Arabia", GazetteerEntry.mk (23.8859) (45.0792) "Saudi Arabia"),
  ("Riyadh", GazetteerEntry.mk (24.7136) (46.6753) "Saudi Arabia"),
  ("Beijing", GazetteerEntry.mk (39.9042) (116.4074) "China"),
  ("China", GazetteerEntry.mk (35.8617) (104.1954) "China"),
  ("Shanghai", GazetteerEntry.mk (31.2304) (121.4737) "China"),
  ("Hong Kong", GazetteerEntry.mk (22.3193) (114.1694) "China"),
  ("Taiwan", GazetteerEntry.mk (23.6978) (120.9605) "Taiwan"),
  ("Taipei", GazetteerEntry.mk (25.033) (121.5654) "Taiwan"),
  ("North Korea", GazetteerEntry.mk (40.3399) (127.5101) "North Korea"),
  ("Pyongyang", GazetteerEntry.mk (39.0392) (125.7625) "North Korea"),
  ("South Korea", GazetteerEntry.mk (35.9078) (127.7669) "South Korea"),
  ("Seoul", GazetteerEntry.mk (37.5665) (126.978) "South Korea")]

/-- Slice of the `KNOWN_LOCATIONS` table (split only to keep elaboration fast). -/
def gazChunk2 : List (String × GazetteerEntry) := [
  ("Japan", GazetteerEntry.mk (36.2048) (138.2529) "Japan"),
  ("Tokyo", GazetteerEntry.mk (35.6762) (139.6503) "Japan"),
  ("India", GazetteerEntry.mk (20.5937) (78.9629) "India"),
  ("New Delhi", GazetteerEntry.mk (28.6139) (77.209) "India"),
  ("Mumbai", GazetteerEntry.mk (19.076) (72.8777) "India"),
  ("Pakistan", GazetteerEntry.mk (30.3753) (69.3451) "Pakistan"),
  ("Islamabad", GazetteerEntry.mk (33.6844) (73.0479) "Pakistan"),
  ("Afghanistan", GazetteerEntry.mk (33.9391) (67.71) "Afghanistan"),
  ("Kabul", GazetteerEntry.mk (34.5553) (69.2075) "Afghanistan"),
  ("Myanmar", GazetteerEntry.mk (21.9162) (95.956) "Myanmar"),
  ("Philippines", GazetteerEntry.mk (12.8797) (121.774) "Philippines"),
  ("Manila", GazetteerEntry.mk (14.5995) (120.9842) "Philippines"),
  ("Sudan", GazetteerEntry.mk (12.8628) (30.2176) "Sudan"),
  ("Khartoum", GazetteerEntry.mk (15.5007) (32.5599) "Sudan"),
  ("Ethiopia", GazetteerEntry.mk (9.145) (40.4897) "Ethiopia"),
  ("Addis Ababa", GazetteerEntry.mk (8.9806) (38.7578) "Ethiopia"),
  ("Somalia", GazetteerEntry.mk (5.1521) (46.1996) "Somalia"),
  ("Mogadishu", GazetteerEntry.mk (2.0469) (45.3182) "Somalia"),
  ("Nigeria", GazetteerEntry.mk (9.082) (8.6753) "Nigeria"),
  ("Lagos", GazetteerEntry.mk (6.5244) (3.3792) "Nigeria")]

/-- Slice of the `KNOWN_LOCATIONS` table (split only to keep elaboration fast). -/
def gazChunk3 : List (String × GazetteerEntry) := [
  ("South Africa", GazetteerEntry.mk (-30.5595) (22.9375) "South Africa"),
  ("Johannesburg", GazetteerEntry.mk (-26.2041) (28.0473) "South Africa"),
  ("Egypt", GazetteerEntry.mk (26.8206) (30.8025) "Egypt"),
  ("Cairo", GazetteerEntry.mk (30.0444) (31.2357) "Egypt"),
  ("Libya", GazetteerEntry.mk (26.3351) (17.2283) "Libya"),
  ("Tripoli", GazetteerEntry.mk (32.8872) (13.1913) "Libya"),
  ("Tunisia", GazetteerEntry.mk (33.8869) (9.5375) "Tunisia"),
  ("Morocco", GazetteerEntry.mk (31.7917) (-7.0926) "Morocco"),
  ("Algeria", GazetteerEntry.mk (28.0339) (1.6596) "Algeria"),
  ("Kenya", GazetteerEntry.mk (-0.0236) (37.9062) "Kenya"),
  ("Nairobi", GazetteerEntry.mk (-1.2921) (36.8219) "Kenya"),
  ("Democratic Republic of Congo", GazetteerEntry.mk (-4.0383) (21.7587) "DRC"),
  ("DRC", GazetteerEntry.mk (-4.0383) (21.7587) "DRC"),
  ("Congo", GazetteerEntry.mk (-4.0383) (21.7587) "DRC"),
  ("United States", GazetteerEntry.mk (37.0902) (-95.7129) "United States"),
  ("USA", GazetteerEntry.mk (37.0902) (-95.7129) "United States"),
  ("Washington", GazetteerEntry.mk (38.9072) (-77.0369) "United States"),
  ("Washington DC", GazetteerEntry.mk (38.9072) (-77.0369) "United States"),
  ("New York", GazetteerEntry.mk (40.7128) (-74.006) "United States"),
  ("Los Angeles", GazetteerEntry.mk (34.0522) (-118.2437) "United States")]

/-- Slice of the `KNOWN_LOCATIONS` table (split only to keep elaboration fast). -/
def gazChunk4 : List (String × GazetteerEntry) := [
  ("Chicago", GazetteerEntry.mk (41.8781) (-87.6298) "United States"),
  ("Houston", GazetteerEntry.mk (29.7604) (-95.3698) "United States"),
  ("Miami", GazetteerEntry.mk (25.7617) (-80.1918) "United States"),
  ("Minneapolis", GazetteerEntry.mk (44.9778) (-93.265) "United States"),
  ("Texas", GazetteerEntry.mk (31.9686) (-99.9018) "United States"),
  ("California", GazetteerEntry.mk (36.7783) (-119.4179) "United States"),
  ("Florida", GazetteerEntry.mk (27.6648) (-81.5158) "United States"),
  ("Venezuela", GazetteerEntry.mk (6.4238) (-66.5897) "Venezuela"),
  ("Caracas", GazetteerEntry.mk (10.4806) (-66.9036) "Venezuela"),
  ("Brazil", GazetteerEntry.mk (-14.235) (-51.9253) "Brazil"),
  ("Sao Paulo", GazetteerEntry.mk (-23.5505) (-46.6333) "Brazil"),
  ("Mexico", GazetteerEntry.mk (23.6345) (-102.5528) "Mexico"),
  ("Mexico City", GazetteerEntry.mk (19.4326) (-99.1332) "Mexico"),
  ("Colombia", GazetteerEntry.mk (4.5709) (-74.2973) "Colombia"),
  ("Bogota", GazetteerEntry.mk (4.711) (-74.0721) "Colombia"),
  ("Argentina", GazetteerEntry.mk (-38.4161) (-63.6167) "Argentina"),
  ("Buenos Aires", GazetteerEntry.mk (-34.6037) (-58.3816) "Argentina"),
  ("Chile", GazetteerEntry.mk (-35.6751) (-71.543) "Chile"),
  ("Santiago", GazetteerEntry.mk (-33.4489) (-70.6693) "Chile"),
  ("Peru", GazetteerEntry.mk (-9.19) (-75.0152) "Peru")]

/-- Slice of the `KNOWN_LOCATIONS` table (split only to keep elaboration fast). -/
def gazChunk5 : List (String × GazetteerEntry) := [
  ("Lima", GazetteerEntry.mk (-12.0464) (-77.0428) "Peru"),
  ("Canada", GazetteerEntry.mk (56.1304) (-106.3468) "Canada"),
  ("Ottawa", GazetteerEntry.mk (45.4215) (-75.6972) "Canada"),
  ("Toronto", GazetteerEntry.mk (43.6532) (-79.3832) "Canada"),
  ("United Kingdom", GazetteerEntry.mk (55.3781) (-3.436) "United Kingdom"),
  ("UK", GazetteerEntry.mk (55.3781) (-3.436) "United Kingdom"),
  ("Britain", GazetteerEntry.mk (55.3781) (-3.436) "United Kingdom"),
  ("London", GazetteerEntry.mk (51.5074) (-0.1278) "United Kingdom"),
  ("France", GazetteerEntry.mk (46.2276) (2.2137) "France"),
  ("Paris", GazetteerEntry.mk (48.8566) (2.3522) "France"),
  ("Germany", GazetteerEntry.mk (51.1657) (10.4515) "Germany"),
  ("Berlin", GazetteerEntry.mk (52.52) (13.405) "Germany"),
  ("Italy", GazetteerEntry.mk (41.8719) (12.5674) "Italy"),
  ("Rome", GazetteerEntry.mk (41.9028) (12.4964) "Italy"),
  ("Spain", GazetteerEntry.mk (40.4637) (-3.7492) "Spain"),
  ("Madrid", GazetteerEntry.mk (40.4168) (-3.7038) "Spain"),
  ("Poland", GazetteerEntry.mk (51.9194) (19.1451) "Poland"),
  ("Warsaw", GazetteerEntry.mk (52.2297) (21.0122) "Poland"),
  ("Turkey", GazetteerEntry.mk (38.9637) (35.2433) "Turkey"),
  ("Ankara", GazetteerEntry.mk (39.9334) (32.8597) "Turkey")]

/-- Slice of the `KNOWN_LOCATIONS` table (split only to keep elaboration fast). -/
def gazChunk6 : List (String × GazetteerEntry) := [
  ("Istanbul", GazetteerEntry.mk (41.0082) (28.9784) "Turkey"),
  ("Greece", GazetteerEntry.mk (39.0742) (21.8243) "Greece"),
  ("Athens", GazetteerEntry.mk (37.9838) (23.7275) "Greece"),
  ("Serbia", GazetteerEntry.mk (44.0165) (21.0059) "Serbia"),
  ("Belgrade", GazetteerEntry.mk (44.7866) (20.4489) "Serbia"),
  ("Kosovo", GazetteerEntry.mk (42.6026) (20.903) "Kosovo"),
  ("Pristina", GazetteerEntry.mk (42.6629) (21.1655) "Kosovo"),
  ("Belarus", GazetteerEntry.mk (53.7098) (27.9534) "Belarus"),
  ("Minsk", GazetteerEntry.mk (53.9006) (27.559) "Belarus"),
  ("Australia", GazetteerEntry.mk (-25.2744) (133.7751) "Australia"),
  ("Sydney", GazetteerEntry.mk (-33.8688) (151.2093) "Australia"),
  ("Melbourne", GazetteerEntry.mk (-37.8136) (144.9631) "Australia"),
  ("New Zealand", GazetteerEntry.mk (-40.9006) (174.886) "New Zealand"),
  ("Wellington", GazetteerEntry.mk (-41.2865) (174.7762) "New Zealand")]

/-- Embeds the `KNOWN_LOCATIONS` static gazetteer of `lib/geocoding.ts` in source order. -/
def KNOWN_LOCATIONS : List (String × GazetteerEntry) :=
  gazChunk0 ++ gazChunk1 ++ gazChunk2 ++ gazChunk3 ++ gazChunk4 ++ gazChunk5 ++ gazChunk6

/-! ### JavaScript string primitives

The String functions of the Lean core library are defined by well-founded
recursion over byte positions, which the kernel cannot evaluate; the embedding
therefore works on the underlying character lists. All strings handled by the
claims are ASCII, where `Char.toLower`/`Char.toUpper` agree with the JavaScript
`toLowerCase`/`toUpperCase`. -/

/-- JavaScript `toLowerCase` (ASCII). -/
def jsToLower (s : String) : String := ⟨s.data.map Char.toLower⟩

/-- JavaScript `toUpperCase` (ASCII). -/
def jsToUpper (s : String) : String := ⟨s.data.map Char.toUpper⟩

/-- Contiguous-sublist test, structurally recursive. -/
def listInfixTest [BEq (α : Type)] : List α → List α → Bool
  | pat, [] => pat.isEmpty
  | pat, c :: cs => pat.isPrefixOf (c :: cs) || listInfixTest pat cs

/-- JavaScript `a.includes(b)` (substring test). -/
def jsIncludes (s sub : String) : Bool := listInfixTest sub.data s.data

/-- JavaScript `a.startsWith b`. -/
def jsStartsWith (s p : String) : Bool := p.data.isPrefixOf s.data

/-- JavaScript `a.endsWith b`. -/
def jsEndsWith (s p : String) : Bool := p.data.isSuffixOf s.data

/-- JavaScript `s.slice(0, n)`. -/
def jsTake (s : String) (n : Nat) : String := ⟨s.data.take n⟩

/-- JavaScript `s.trim()` (whitespace from both ends). -/
def jsTrim (s : String) : String :=
  ⟨(s.data.dropWhile Char.isWhitespace).reverse.dropWhile Char.isWhitespace |>.reverse⟩

/-- JavaScript string truthiness: an optional string is truthy when present and
non-empty. -/
def strTruthy : Option String → Bool
  | none => false
  | some s => !(s == "")

/-- JavaScript `o || d` for an optional string `o` and default `d`: the default
is used when the field is absent or the empty string. -/
def orDefault (o : Option String) (d : String) : String :=
  match o with
  | some s => if s == "" then d else s
  | none => d

/-- Embeds `geocodeLocation` of `lib/geocoding.ts`. The Mapbox remote fallback
(including the missing-token case, where the code returns null without a call)
is the oracle `fallback`. First an exact key lookup in the gazetteer, then a
case-insensitive one, and only then the fallback. -/
def geocodeLocation (fallback : String → Option GeoLocation)
    (placeName : String) : Option GeoLocation :=
  match KNOWN_LOCATIONS.find? (fun kv => kv.1 == placeName) with
  | some kv => some ⟨kv.2.lat, kv.2.lng, placeName, some kv.2.country, none⟩
  | none =>
    match KNOWN_LOCATIONS.find? (fun kv => jsToLower kv.1 == jsToLower placeName) with
    | some kv => some ⟨kv.2.lat, kv.2.lng, kv.1, some kv.2.country, none⟩
    | none => fallback placeName

example : geocodeLocation (fun _ => none) "Tokyo" =
    some ⟨35.6762, 139.6503, "Tokyo", some "Japan", none⟩ := rfl

example : geocodeLocation (fun _ => none) "tokyo" =
    some ⟨35.6762, 139.6503, "Tokyo", some "Japan", none⟩ := rfl

example : (KNOWN_LOCATIONS.map Prod.fst).Nodup := by decide

example : (KNOWN_LOCATIONS.map (fun kv => jsToLower kv.1)).Nodup := by decide
/-- Embeds `LOCATION_BLACKLIST` of `lib/geocoding.ts` (words never accepted as
regex-extracted location candidates). -/
def LOCATION_BLACKLIST : List String := [
  "National", "International", "Global", "Federal", "State", "Regional", "Local", "Central",
  "Western", "Eastern", "Northern", "Southern", "United", "Democratic", "Republic", "People",
  "Supreme", "Royal", "Imperial", "President", "Minister", "Secretary", "Director", "General",
  "Admiral", "Colonel", "Major", "Captain", "Chief", "Head", "Leader", "Chairman",
  "CEO", "DOJ", "FBI", "CIA", "NSA", "NATO", "OPEC", "ASEAN",
  "WHO", "IMF", "Breaking", "Update", "Alert", "Report", "Analysis", "Opinion",
  "Editorial", "Exclusive", "Live", "Watch", "Video", "Photo", "Image", "Monday",
  "Tuesday", "Wednesday", "Thursday", "Friday", "Saturday", "Sunday", "January", "February",
  "March", "April", "May", "June", "July", "August", "September", "October",
  "November", "December", "Church", "Mosque", "Temple", "Synagogue", "Cathedral", "Chapel",
  "First", "Second", "Third", "Last", "New", "Old", "Great", "Big",
  "Small", "High", "Low", "Top", "Bottom"]

/-! ### Location extraction from free text (`extractLocationsFromText`)

The gazetteer scan of the source tests `new RegExp("\\b" + location + "\\b", "i")`
against the text. For the gazetteer keys (which start and end with letters and
contain `.` only as the regex any-character wildcard) this is: a case-insensitive
occurrence whose ends sit on word boundaries. The seven `LOCATION_PATTERNS`
regexes are embedded as an oracle `patternCands` returning the trimmed first
capture groups in match order; every theorem quantifies over it. -/

/-- A regex word character (`\w`): letter, digit or underscore. -/
def isWordChar (c : Char) : Bool := c.isAlphanum || c == '_'

/-- One pattern character against one text character, case-insensitively; `.` is
the regex wildcard. -/
def patCharMatch (p c : Char) : Bool := p == '.' || p.toLower == c.toLower

/-- Does the pattern match at the head of the text, with a word boundary right
after it? -/
def matchHere : List Char → List Char → Bool
  | [], [] => true
  | [], c :: _ => !isWordChar c
  | _ :: _, [] => false
  | p :: ps, c :: cs => patCharMatch p c && matchHere ps cs

/-- Scan for a word-boundary-delimited, case-insensitive occurrence of `pat`
anywhere in the text. `prev` is the character before the current position. -/
def wbScan (pat : List Char) (prev : Option Char) : List Char → Bool
  | [] => false
  | c :: cs =>
    ((match prev with | none => true | some p => !isWordChar p) && matchHere pat (c :: cs))
      || wbScan pat (some c) cs

/-- The `\b<key>\b` case-insensitive regex test of the gazetteer scan. -/
def knownLocationMatches (key : String) (text : String) : Bool :=
  wbScan key.data none text.data

/-- The filter applied to a regex-extracted candidate in
`extractLocationsFromText`: nonempty, not blacklisted, at least 3 characters,
and not an all-caps token of at most 4 characters. -/
def passesCandidateFilter (c : String) : Bool :=
  !(c == "") && !(LOCATION_BLACKLIST.contains c) &&
    (3 ≤ c.length && !(c.length ≤ 4 && c == jsToUpper c))

/-- JavaScript `Set` insertion-order deduplication: keep the first occurrence. -/
def setDedup (seen : List String) : List String → List String
  | [] => []
  | x :: xs => if seen.contains x then setDedup seen xs else x :: setDedup (x :: seen) xs

/-- Embeds `extractLocationsFromText` of `lib/geocoding.ts`: gazetteer keys
found in the text (unfiltered), then the pattern-extracted candidates passed
through `passesCandidateFilter`, deduplicated in insertion order. -/
def extractLocationsFromText (patternCands : String → List String)
    (text : String) : List String :=
  let known := (KNOWN_LOCATIONS.map Prod.fst).filter (fun k => knownLocationMatches k text)
  let fromPatterns := (patternCands text).filter passesCandidateFilter
  setDedup [] (known ++ fromPatterns)

example : extractLocationsFromText (fun _ => []) "UK" = ["UK"] := by decide

example : extractLocationsFromText (fun _ => []) "Ukraine Kyiv" = ["Ukraine", "Kyiv"] := by decide

/-- The candidate accumulation loop of `geocodeLocationsFromText`: push each
candidate that is not already present case-insensitively, stopping as soon as
the list reaches `maxL` entries. -/
def buildLocationNames (acc : List String) (maxL : Nat) : List String → List String
  | [] => acc
  | c :: cs =>
    let acc2 := if acc.any (fun l => jsToLower l == jsToLower c) then acc else acc ++ [c]
    if maxL ≤ acc2.length then acc2 else buildLocationNames acc2 maxL cs

/-- The primary-location computation of `geocodeLocationsFromText`: the raw AI
reply `aiAnswer` (the oracle for `extractLocationWithAI`) is consulted only
when a title is supplied, and discarded when it is UNKNOWN or no longer than
one character. -/
def primaryOf (aiAnswer : Option String) (title : Option String) : Option String :=
  if title.isSome then
    match aiAnswer with
    | some r => if !(r == "UNKNOWN") && 1 < r.length then some r else none
    | none => none
  else none

/-- Embeds `geocodeLocationsFromText` of `lib/geocoding.ts`. `fallback` is the
Mapbox oracle passed through to `geocodeLocation`. -/
def geocodeLocationsFromText (patternCands : String → List String)
    (aiAnswer : Option String) (fallback : String → Option GeoLocation)
    (text : String) (title : Option String) (maxLocations : Nat) : List GeoLocation :=
  let regexCandidates := extractLocationsFromText patternCands text
  let names0 : List String := match primaryOf aiAnswer title with
    | some p => [p]
    | none => []
  let locationNames := buildLocationNames names0 maxLocations regexCandidates
  (locationNames.take maxLocations).filterMap (geocodeLocation fallback)

example :
    geocodeLocationsFromText (fun _ => ["Bonn", "Kiel"]) none
      (fun _ => some ⟨50.73, 7.09, "Germany", some "Germany", none⟩)
      "from Bonn throughout Kiel" none 3 =
    [⟨50.73, 7.09, "Germany", some "Germany", none⟩,
     ⟨50.73, 7.09, "Germany", some "Germany", none⟩] := rfl

example :
    geocodeLocationsFromText (fun _ => []) none (fun _ => none) "Ukraine Kyiv" none 3 =
    [⟨48.3794, 31.1656, "Ukraine", some "Ukraine", none⟩,
     ⟨50.4501, 30.5234, "Kyiv", some "Ukraine", none⟩] := rfl

/-! ### Event assembler (`processSearchResults` of `app/api/events/route.ts`) -/

/-- One raw search result. `publishedDate` is the parsed timestamp in epoch
milliseconds (absent when the field is missing or empty). -/
structure RawResult where
  title : String
  url : String
  content : String
  publishedDate : Option Int := none
  source : Option String := none
deriving DecidableEq, Repr

/-- The result of `classifyEvent` in `lib/ai-classifier.ts`: category, threat
level and an optional geocoded location. -/
structure Classification where
  category : String
  threatLevel : String
  location : Option GeoLocation
deriving DecidableEq, Repr

/-- A fully assembled threat event (the `ThreatEvent` type of `types`), with the
timestamp already in epoch milliseconds. -/
structure ThreatEvent where
  id : String
  title : String
  summary : String
  category : String
  threatLevel : String
  location : GeoLocation
  timestamp : Int
  source : String
  sourceUrl : String
  entities : List String
  keywords : List String
  rawContent : String
deriving DecidableEq, Repr

/-- The effectful / purely textual collaborators of `processSearchResults`,
passed as oracles: `cleanContent` (boilerplate stripping), `classify`
(`classifyEvent`, covering both the AI and the keyword fallback path), the
keyword/entity extractors, the id generator (indexed by batch position, since
each call of `generateEventId` is fresh), and the current time used when a
result has no published date. -/
structure AssemblerEnv where
  cleanContent : String → String
  classify : String → String → Classification
  extractEntities : String → List String
  extractKeywords : String → List String
  genId : Nat → String
  now : Int

/-- Embeds `BLOCKED_DOMAINS` of `app/api/events/route.ts`. -/
def BLOCKED_DOMAINS : List String :=
  ["wikipedia.org", "brighteon.com", "fortinet.com", "cisa.gov"]

/-- Helper for the `recent cyber attacks in \d{4}` pattern: the string starts
with four digits. -/
def startsWithFourDigits (s : List Char) : Bool :=
  match s with
  | a :: b :: c :: d :: _ => a.isDigit && b.isDigit && c.isDigit && d.isDigit
  | _ => false

/-- Embeds the `GENERIC_TITLE_PATTERNS` test of `app/api/events/route.ts`: each
of the eight case-insensitive anchored regexes, expressed over the lowercased
title. -/
def matchesGenericTitle (title : String) : Bool :=
  let t := jsToLower title
  jsEndsWith t "| topic" || jsEndsWith t "| homeland security" ||
    jsEndsWith t "| fortinet" || t == "natural disasters" ||
    t == "countering terrorism" || jsStartsWith t "maritime piracy:" ||
    jsStartsWith t "assessment of global" ||
    (jsStartsWith t "recent cyber attacks in " && startsWithFourDigits (t.data.drop 24))

/-- The pre-filter of `processSearchResults`: drop results whose lowercased URL
contains a blocked domain and results with a generic title. -/
def preFiltered (results : List RawResult) : List RawResult :=
  results.filter (fun r =>
    !(BLOCKED_DOMAINS.any (fun d => jsIncludes (jsToLower r.url) d)) &&
      !(matchesGenericTitle r.title))

/-- URL normalization of the deduplication stage: drop the query string, drop
one trailing slash, lowercase. -/
def normalizeUrl (u : String) : String :=
  let noQuery : List Char := u.data.takeWhile (fun c => !(c == '?'))
  let noSlash := if noQuery.getLast? == some '/' then noQuery.dropLast else noQuery
  jsToLower ⟨noSlash⟩

/-- The `seenUrls` set-based deduplication of `processSearchResults`: keep a
result only when its normalized URL has not been seen before. -/
def dedupByUrl (seen : List String) : List RawResult → List RawResult
  | [] => []
  | r :: rs =>
    if seen.contains (normalizeUrl r.url) then dedupByUrl seen rs
    else r :: dedupByUrl (normalizeUrl r.url :: seen) rs

/-- The deduplicated result list before classification (`uniqueResults`). -/
def uniqueResults (results : List RawResult) : List RawResult :=
  dedupByUrl [] (preFiltered results)

/-- Embeds `isValidLocation` of `app/api/events/route.ts`. -/
def isValidLocation (loc : GeoLocation) : Bool :=
  let name := if loc.placeName == "" then orDefault loc.country "" else loc.placeName
  if name.length < 2 then false
  else if jsToLower name == "routes" then false
  else if (!(name == "") && name.data.all (fun c => c.isAlpha || c.isWhitespace))
      && name.length < 3 then false
  else if ["unknown", "global", "worldwide", "n/a"].contains (jsToLower name) then false
  else true

/-- The per-result body of the `Promise.all` map in `processSearchResults`:
clean the text, classify it, discard the result unless a valid location was
produced, and otherwise construct the `ThreatEvent`. `n` is the batch position;
it only feeds the id oracle. -/
def buildEvent (env : AssemblerEnv) (n : Nat) (r : RawResult) : Option ThreatEvent :=
  let cleanedTitle := env.cleanContent r.title
  let cleanedContent := env.cleanContent r.content
  let fullText := cleanedTitle ++ " " ++ cleanedContent
  let cls := env.classify cleanedTitle cleanedContent
  match cls.location with
  | none => none
  | some loc =>
    if isValidLocation loc then
      some { id := env.genId n
             title := cleanedTitle
             summary := jsTake cleanedContent 500
             category := cls.category
             threatLevel := cls.threatLevel
             location := loc
             timestamp := r.publishedDate.getD env.now
             source := orDefault r.source "web"
             sourceUrl := r.url
             entities := env.extractEntities fullText
             keywords := env.extractKeywords fullText
             rawContent := cleanedContent }
    else none

/-- The map-then-filter over the unique results (`eventsWithLocations` followed
by the null filter, producing `validEvents`). -/
def buildEvents (env : AssemblerEnv) : Nat → List RawResult → List ThreatEvent
  | _, [] => []
  | n, r :: rs =>
    match buildEvent env n r with
    | none => buildEvents env (n + 1) rs
    | some e => e :: buildEvents env (n + 1) rs

/-- `validEvents` of `processSearchResults`. -/
def validEvents (env : AssemblerEnv) (results : List RawResult) : List ThreatEvent :=
  buildEvents env 0 (uniqueResults results)

/-- The title deduplication of `processSearchResults`, mirroring
`self.findIndex`: keep an event exactly when its index equals the index of the
first event with the same title. -/
def uniqueEvents (env : AssemblerEnv) (results : List RawResult) : List ThreatEvent :=
  let l := validEvents env results
  (l.enum.filter (fun p => l.findIdx (fun e => e.title == p.2.title) == p.1)).map Prod.snd

/-- Embeds `THREAT_LEVEL_PRIORITY` plus the `?? 5` default of the sort
comparators: critical 0, high 1, medium 2, low 3, info 4, anything else 5. -/
def threatPriority (lvl : String) : Nat :=
  (([("critical", 0), ("high", 1), ("medium", 2), ("low", 3), ("info", 4)].find?
    (fun kv => kv.1 == lvl)).map Prod.snd).getD 5

/-- The order realized by the shared sort comparator of `processSearchResults`
and the events store: ascending threat priority, ties broken by descending
timestamp. -/
def eventOrder (a b : ThreatEvent) : Prop :=
  threatPriority a.threatLevel < threatPriority b.threatLevel ∨
    (threatPriority a.threatLevel = threatPriority b.threatLevel ∧ b.timestamp ≤ a.timestamp)

instance : DecidableRel eventOrder := fun _ _ =>
  inferInstanceAs (Decidable (_ ∨ _ ∧ _))

/-- The `uniqueEvents.sort(...)` call: JavaScript sorts are stable sorted
permutations under a consistent comparator, modelled by insertion sort with
respect to `eventOrder`. -/
def sortEvents (l : List ThreatEvent) : List ThreatEvent :=
  l.insertionSort eventOrder

/-- Embeds `processSearchResults` of `app/api/events/route.ts` end to end. -/
def processSearchResults (env : AssemblerEnv) (results : List RawResult) :
    List ThreatEvent :=
  sortEvents (uniqueEvents env results)

/-- A concrete oracle environment used by witness evaluations: identity
cleaning, a classifier that reads the threat level and place name off the
title, numeric ids. -/
def testEnv : AssemblerEnv where
  cleanContent := id
  classify := fun t _ =>
    if t == "alpha" then ⟨"conflict", "high", some ⟨1, 2, "Paris", some "France", none⟩⟩
    else if t == "beta" then ⟨"protest", "critical", some ⟨3, 4, "Kyiv", some "Ukraine", none⟩⟩
    else if t == "gamma" then ⟨"cyber", "info", none⟩
    else ⟨"crime", "low", some ⟨5, 6, "Lima", some "Peru", none⟩⟩
  extractEntities := fun _ => []
  extractKeywords := fun _ => []
  genId := fun n => toString n
  now := 1000

example :
    (processSearchResults testEnv
      [⟨"alpha", "https://a.com/x?ref=1", "c1", some 5, none⟩,
       ⟨"beta", "https://b.com/y/", "c2", some 9, some "feed"⟩,
       ⟨"gamma", "https://c.com/z", "c3", none, none⟩,
       ⟨"alpha", "https://A.com/x/", "c4", some 7, none⟩]).map ThreatEvent.title =
    ["beta", "alpha"] := by decide

/-! ### Events store (`stores/events-store.ts`) -/

/-- The time-range filter value; `first`/`last` embed the `start`/`end` fields
as epoch milliseconds. -/
structure TimeRange where
  first : Int
  last : Int
deriving DecidableEq, Repr

/-- The zustand store state (the data fields; the action closures are the
functions below). -/
structure EventsState where
  events : List ThreatEvent
  filteredEvents : List ThreatEvent
  selectedEvent : Option ThreatEvent := none
  isLoading : Bool := false
  error : Option String := none
  timeRange : Option TimeRange := none
  categoryFilters : List String := []
  threatLevelFilters : List String := []
  searchQuery : String := ""
deriving Repr

/-- The free-text predicate of `applyFilters`: case-insensitive substring match
against title, summary, place name, or country. -/
def matchesQuery (q : String) (e : ThreatEvent) : Bool :=
  jsIncludes (jsToLower e.title) q || jsIncludes (jsToLower e.summary) q ||
    jsIncludes (jsToLower e.location.placeName) q ||
    (match e.location.country with
     | some c => jsIncludes (jsToLower c) q
     | none => false)

/-- Embeds `applyFilters` of the events store: apply the four optional filters
to `events`, sort with the shared comparator, store into `filteredEvents`. -/
def applyFilters (s : EventsState) : EventsState :=
  let f1 := match s.timeRange with
    | some tr => s.events.filter (fun e => decide (tr.first ≤ e.timestamp ∧ e.timestamp ≤ tr.last))
    | none => s.events
  let f2 := if s.categoryFilters.isEmpty then f1
    else f1.filter (fun e => s.categoryFilters.contains e.category)
  let f3 := if s.threatLevelFilters.isEmpty then f2
    else f2.filter (fun e => s.threatLevelFilters.contains e.threatLevel)
  let f4 := if jsTrim s.searchQuery == "" then f3
    else f3.filter (matchesQuery (jsToLower s.searchQuery))
  { s with filteredEvents := sortEvents f4 }

/-- Store action `setEvents`: replace the list (no cap) and refilter. -/
def setEvents (s : EventsState) (events : List ThreatEvent) : EventsState :=
  applyFilters { s with events := events }

/-- Store action `addEvent`: prepend one event, cap at 1000, refilter. -/
def addEvent (s : EventsState) (e : ThreatEvent) : EventsState :=
  applyFilters { s with events := (e :: s.events).take 1000 }

/-- Store action `addEvents`: prepend the new list, cap at 1000, refilter. -/
def addEvents (s : EventsState) (events : List ThreatEvent) : EventsState :=
  applyFilters { s with events := (events ++ s.events).take 1000 }

/-- Store action `setTimeRange`. -/
def setTimeRange (s : EventsState) (tr : Option TimeRange) : EventsState :=
  applyFilters { s with timeRange := tr }

/-- Store action `setCategoryFilters`. -/
def setCategoryFilters (s : EventsState) (cf : List String) : EventsState :=
  applyFilters { s with categoryFilters := cf }

/-- Store action `setThreatLevelFilters`. -/
def setThreatLevelFilters (s : EventsState) (tf : List String) : EventsState :=
  applyFilters { s with threatLevelFilters := tf }

/-- Store action `setSearchQuery`. -/
def setSearchQuery (s : EventsState) (q : String) : EventsState :=
  applyFilters { s with searchQuery := q }

/-- Store action `clearFilters`: reset all filters and refilter. -/
def clearFilters (s : EventsState) : EventsState :=
  applyFilters { s with timeRange := none, categoryFilters := [],
                        threatLevelFilters := [], searchQuery := "" }

/-! ### Conflict stream relay (`streamCountryConflicts` of `lib/valyu.ts`) -/

/-- A provider-side source reference with possibly missing fields. -/
structure RawSource where
  title : Option String := none
  url : Option String := none
deriving DecidableEq, Repr

/-- A normalized source reference as emitted in chunks. -/
structure SourceRef where
  title : String
  url : String
deriving DecidableEq, Repr

/-- `(statusData.sources || []).map(...)` and the matching chunk mapping: title
defaults to `Source`, url to the empty string. -/
def mapSources (l : List RawSource) : List SourceRef :=
  l.map (fun s => ⟨orDefault s.title "Source", orDefault s.url ""⟩)

/-- The tagged chunk union `ConflictStreamChunk` of `lib/valyu.ts`. -/
structure ConflictStreamChunk where
  type : String
  content : Option String := none
  sources : Option (List SourceRef) := none
  error : Option String := none
deriving DecidableEq, Repr

/-- The terminal `done` chunk. -/
def doneChunk : ConflictStreamChunk := ⟨"done", none, none, none⟩

/-- The terminal `error` chunk carrying the caught message. -/
def errorChunk (msg : String) : ConflictStreamChunk := ⟨"error", none, none, some msg⟩

/-- The body of an answer-endpoint response as read by the relay. -/
structure AnswerData where
  contents : Option String := none
  search_results : Option (List RawSource) := none
deriving DecidableEq, Repr

/-- The result of `callViaProxy` for one phase. `callViaProxy` catches every
exception and reports failure through `success := false`, so a proxy-mode phase
never throws. -/
structure ProxyAnswer where
  success : Bool
  data : Option AnswerData := none
deriving DecidableEq, Repr

/-- The chunks relayed for one proxy-mode phase: a content chunk when the call
succeeded with truthy `contents`, then a sources chunk when `search_results`
is present (a JavaScript array is truthy even when empty). -/
def proxyPhaseChunks (r : ProxyAnswer) (tContent tSources : String) :
    List ConflictStreamChunk :=
  if r.success then
    match r.data with
    | some d =>
      (match d.contents with
       | some c => if c == "" then [] else [⟨tContent, some c, none, none⟩]
       | none => []) ++
      (match d.search_results with
       | some srs => [⟨tSources, none, some (mapSources srs), none⟩]
       | none => [])
    | none => []
  else []

/-- Embeds the proxy branch of `streamCountryConflicts` (access token present):
relay the current phase, then the past phase, then `done`. The country string
only shapes the provider queries, which the two `ProxyAnswer` oracles already
determine. -/
def streamCountryConflictsProxy (cur past : ProxyAnswer) : List ConflictStreamChunk :=
  proxyPhaseChunks cur "current_content" "current_sources" ++
    proxyPhaseChunks past "past_content" "past_sources" ++ [doneChunk]

/-- One chunk of a self-hosted streaming answer. -/
structure RawChunk where
  type : String
  content : Option String := none
  search_results : Option (List RawSource) := none
deriving DecidableEq, Repr

/-- What one `valyu.answer(..., streaming: true)` call does, as observed by the
relay loop: either the resolved value is not an async iterable (no chunks), or
it yields a chunk list and then either finishes or throws. A call that rejects
immediately is `chunks [] true`. -/
inductive AnswerOutcome where
  | notIterable
  | chunks (cs : List RawChunk) (throws : Bool)

/-- The per-chunk translation of the relay loop: forward truthy `content`
chunks and present `search_results` chunks, skip everything else. -/
def translateChunk (tContent tSources : String) (c : RawChunk) :
    Option ConflictStreamChunk :=
  if c.type == "content" && strTruthy c.content then
    some ⟨tContent, c.content, none, none⟩
  else if c.type == "search_results" && c.search_results.isSome then
    some ⟨tSources, none, (c.search_results.map mapSources), none⟩
  else none

/-- The chunks relayed for one self-hosted phase, plus whether the phase threw. -/
def selfPhaseChunks (tContent tSources : String) :
    AnswerOutcome → List ConflictStreamChunk × Bool
  | .notIterable => ([], false)
  | .chunks cs throws => (cs.filterMap (translateChunk tContent tSources), throws)

/-- Embeds the self-hosted branch of `streamCountryConflicts`: stream the
current phase, then the past phase, then `done`; the surrounding try/catch
turns a throw anywhere into a single `error` chunk and ends the stream. -/
def streamCountryConflictsSelf (cur past : AnswerOutcome) (errMsg : String) :
    List ConflictStreamChunk :=
  let c1 := selfPhaseChunks "current_content" "current_sources" cur
  if c1.2 then c1.1 ++ [errorChunk errMsg]
  else
    let c2 := selfPhaseChunks "past_content" "past_sources" past
    if c2.2 then c1.1 ++ c2.1 ++ [errorChunk errMsg]
    else c1.1 ++ c2.1 ++ [doneChunk]

/-! ### Deep-research poll loop (`deepResearchViaProxy` of `lib/valyu.ts`) -/

/-- One deliverable entry of a status payload. -/
structure DeliverableRaw where
  dtype : String
  status : String
  url : Option String := none
  title : String := ""
deriving DecidableEq, Repr

/-- A parsed status payload. `output` is the markdown summary (non-string
outputs are stringified by the code before storing). -/
structure PollStatusData where
  status : String
  output : String := ""
  sources : Option (List RawSource) := none
  deliverables : Option (List DeliverableRaw) := none
  pdf_url : Option String := none
deriving DecidableEq, Repr

/-- One poll observation: a non-2xx response, or a parsed payload. -/
inductive PollResponse where
  | notOk
  | ok (data : PollStatusData)

/-- A completed deliverable link. -/
structure DeliverableLink where
  url : String
  title : String
deriving DecidableEq, Repr

/-- The `DeepResearchResult` shape assembled by `deepResearchViaProxy`. -/
structure DeepResearchResult where
  summary : String
  sources : List SourceRef
  csv : Option DeliverableLink := none
  pptx : Option DeliverableLink := none
  pdfUrl : Option String := none
deriving DecidableEq, Repr

/-- The deliverable folding of the completed branch: keep a deliverable only
when its own status is `completed` and its url is truthy; the csv and pptx
slots each take the last such entry of their type. -/
def foldDeliverables (l : List DeliverableRaw) :
    Option DeliverableLink × Option DeliverableLink :=
  l.foldl (fun acc dv =>
    match dv.url with
    | some u =>
      if dv.status == "completed" && !(u == "") then
        if dv.dtype == "csv" then (some ⟨u, dv.title⟩, acc.2)
        else if dv.dtype == "pptx" then (acc.1, some ⟨u, dv.title⟩)
        else acc
      else acc
    | none => acc) (none, none)

/-- The result returned when a poll reports `completed`. -/
def completedResult (d : PollStatusData) : DeepResearchResult :=
  let dl := foldDeliverables (d.deliverables.getD [])
  { summary := d.output
    sources := mapSources (d.sources.getD [])
    csv := dl.1
    pptx := dl.2
    pdfUrl := d.pdf_url }

/-- The result returned when a poll reports `failed`. -/
def failedResult : DeepResearchResult :=
  { summary := "Research did not complete successfully.", sources := [] }

/-- The synthetic result returned when every attempt is exhausted. -/
def timedOutResult : DeepResearchResult :=
  { summary := "Research timed out.", sources := [] }

/-- `maxAttempts` of the poll loop. -/
def maxPollAttempts : Nat := 120

/-- Is a poll observation a loop-ending one (an ok response whose status is
`completed` or `failed`)? -/
def isTerminalPoll : PollResponse → Bool
  | .notOk => false
  | .ok d => d.status == "completed" || d.status == "failed"

/-- Embeds the polling `for` loop of `deepResearchViaProxy`, from attempt `i`:
a non-2xx response is skipped, `completed` and `failed` end the loop, any other
status continues, and exhaustion yields the synthetic timeout result. `poll`
is the oracle giving the provider response to attempt number `i`. -/
def pollLoop (poll : Nat → PollResponse) (i : Nat) : DeepResearchResult :=
  if _h : i < maxPollAttempts then
    match poll i with
    | .notOk => pollLoop poll (i + 1)
    | .ok d =>
      if d.status == "completed" then completedResult d
      else if d.status == "failed" then failedResult
      else pollLoop poll (i + 1)
  else timedOutResult
termination_by maxPollAttempts - i
decreasing_by all_goals omega

/-- The wait phase of `deepResearchViaProxy` (after successful task creation). -/
def waitForResearch (poll : Nat → PollResponse) : DeepResearchResult :=
  pollLoop poll 0

/-- Modelled from the spec: `waitToCompletion` examines at most the first
`maxAttempts` poll responses, returns the completed result at the first
`completed` status, the failed result at the first `failed` status, skips
non-2xx responses, and synthesizes a timeout result when no terminal status
appears within the bound. -/
def waitForResearchSpec (poll : Nat → PollResponse) : DeepResearchResult :=
  match (List.range maxPollAttempts).find? (fun i => isTerminalPoll (poll i)) with
  | some i =>
    match poll i with
    | .ok d => if d.status == "completed" then completedResult d else failedResult
    | .notOk => timedOutResult
  | none => timedOutResult

/-! ## Theorems -/

theorem eventOrder_total (a b : ThreatEvent) : eventOrder a b ∨ eventOrder b a := by
  unfold eventOrder; omega

theorem eventOrder_trans (a b c : ThreatEvent) :
    eventOrder a b → eventOrder b c → eventOrder a c := by
  unfold eventOrder; omega

instance : IsTotal ThreatEvent eventOrder := ⟨eventOrder_total⟩

instance : IsTrans ThreatEvent eventOrder := ⟨eventOrder_trans⟩

/-- The ordering property claimed for assembler output and store output:
for any earlier `a` and later `b`, ascending threat priority, and descending
timestamp within one priority class. -/
def orderedAsSpec (l : List ThreatEvent) : Prop :=
  l.Pairwise (fun a b =>
    threatPriority a.threatLevel ≤ threatPriority b.threatLevel ∧
      (threatPriority a.threatLevel = threatPriority b.threatLevel →
        b.timestamp ≤ a.timestamp))

theorem sortEvents_ordered (l : List ThreatEvent) : orderedAsSpec (sortEvents l) := by
  have h := List.sorted_insertionSort eventOrder l
  refine List.Pairwise.imp ?_ h
  intro a b hab
  unfold eventOrder at hab
  exact ⟨by omega, by omega⟩

theorem applyFilters_ordered (s : EventsState) :
    orderedAsSpec (applyFilters s).filteredEvents :=
  sortEvents_ordered _

/-- C1: the assembler output is sorted by ascending threat priority with ties
broken by descending timestamp, and the store recomputes `filteredEvents` in
the same order after every mutating call. -/
theorem assembler_and_store_ordering :
    (∀ env results, orderedAsSpec (processSearchResults env results)) ∧
    (∀ s l, orderedAsSpec (setEvents s l).filteredEvents) ∧
    (∀ s e, orderedAsSpec (addEvent s e).filteredEvents) ∧
    (∀ s l, orderedAsSpec (addEvents s l).filteredEvents) ∧
    (∀ s tr, orderedAsSpec (setTimeRange s tr).filteredEvents) ∧
    (∀ s cf, orderedAsSpec (setCategoryFilters s cf).filteredEvents) ∧
    (∀ s tf, orderedAsSpec (setThreatLevelFilters s tf).filteredEvents) ∧
    (∀ s q, orderedAsSpec (setSearchQuery s q).filteredEvents) ∧
    (∀ s, orderedAsSpec (clearFilters s).filteredEvents) ∧
    (∀ s, orderedAsSpec (applyFilters s).filteredEvents) :=
  ⟨fun _ _ => sortEvents_ordered _,
   fun _ _ => applyFilters_ordered _,
   fun _ _ => applyFilters_ordered _,
   fun _ _ => applyFilters_ordered _,
   fun _ _ => applyFilters_ordered _,
   fun _ _ => applyFilters_ordered _,
   fun _ _ => applyFilters_ordered _,
   fun _ _ => applyFilters_ordered _,
   fun _ => applyFilters_ordered _,
   fun _ => applyFilters_ordered _⟩

/-- C10: `setEvents` stores the given list verbatim with no size cap, while
`addEvent` and `addEvents` prepend and keep only the first 1000 entries of the
prepended list. -/
theorem setEvents_uncapped_add_capped :
    (∀ s l, (setEvents s l).events = l) ∧
    (∀ s l, 1000 < l.length → 1000 < (setEvents s l).events.length) ∧
    (∀ s e, (addEvent s e).events = (e :: s.events).take 1000) ∧
    (∀ s l, (addEvents s l).events = (l ++ s.events).take 1000) ∧
    (∀ s e, (addEvent s e).events.length ≤ 1000) ∧
    (∀ s l, (addEvents s l).events.length ≤ 1000) := by
  refine ⟨fun _ _ => rfl, ?_, fun _ _ => rfl, fun _ _ => rfl, ?_, ?_⟩
  · intro s l h
    have he : (setEvents s l).events = l := rfl
    rw [he]; exact h
  · intro s e
    have he : (addEvent s e).events = (e :: s.events).take 1000 := rfl
    rw [he]; simp [List.length_take_le]
  · intro s l
    have he : (addEvents s l).events = (l ++ s.events).take 1000 := rfl
    rw [he]; simp [List.length_take_le]

/-- A minimal concrete event used by witnesses. -/
def sampleEvent : ThreatEvent :=
  { id := "w0", title := "t", summary := "s", category := "conflict",
    threatLevel := "high", location := ⟨1, 2, "Paris", some "France", none⟩,
    timestamp := 0, source := "web", sourceUrl := "https://a.com/x",
    entities := [], keywords := [], rawContent := "s" }

/-- The initial store state. -/
def emptyState : EventsState := { events := [], filteredEvents := [] }

/-- Witness for C10: a 1001-event list passed to `setEvents` is stored without
being capped. -/
theorem setEvents_uncapped_witness :
    1000 < (setEvents emptyState (List.replicate 1001 sampleEvent)).events.length :=
  setEvents_uncapped_add_capped.2.1 _ _ (by simp)

/-- How the loop resolves the first loop-ending poll observation. -/
def pollResolve (poll : Nat → PollResponse) (j : Nat) : DeepResearchResult :=
  match poll j with
  | .ok d => if d.status == "completed" then completedResult d else failedResult
  | .notOk => timedOutResult

theorem pollLoop_eq_find (poll : Nat → PollResponse) :
    ∀ n i, maxPollAttempts - i = n →
      pollLoop poll i =
        Option.elim ((List.range' i n).find? (fun j => isTerminalPoll (poll j)))
          timedOutResult (pollResolve poll) := by
  intro n
  induction n with
  | zero =>
    intro i hi
    rw [pollLoop]
    have hge : ¬ i < maxPollAttempts := by omega
    simp [hge, List.range']
  | succ n ih =>
    intro i hi
    have hlt : i < maxPollAttempts := by omega
    have hn : maxPollAttempts - (i + 1) = n := by omega
    rw [pollLoop, dif_pos hlt, List.range'_succ]
    cases hp : poll i with
    | notOk =>
      have hterm : isTerminalPoll (poll i) = false := by rw [hp]; rfl
      rw [List.find?_cons_of_neg _ (by simp [hterm])]
      exact ih (i + 1) hn
    | ok d =>
      by_cases hcomp : d.status == "completed"
      · have hterm : isTerminalPoll (poll i) = true := by
          rw [hp]; simp [isTerminalPoll, hcomp]
        rw [List.find?_cons_of_pos _ (by simp [hterm])]
        simp [Option.elim, pollResolve, hp, hcomp]
      · by_cases hfail : d.status == "failed"
        · have hterm : isTerminalPoll (poll i) = true := by
            rw [hp]; simp [isTerminalPoll, hfail]
          rw [List.find?_cons_of_pos _ (by simp [hterm])]
          simp [Option.elim, pollResolve, hp, hcomp, hfail]
        · have hterm : isTerminalPoll (poll i) = false := by
            rw [hp]; simp [isTerminalPoll, hcomp, hfail]
          rw [List.find?_cons_of_neg _ (by simp [hterm])]
          have hrec := ih (i + 1) hn
          simp only [hp]
          simp [hcomp, hfail, hrec]

/-- C5: the wait loop's whole behaviour is decided by the first 120 poll
responses: the first `completed` or `failed` status ends it (non-2xx responses
are skipped, any other status continues), and if no loop-ending status appears
within the bound it returns the synthetic timed-out result instead of
throwing. -/
theorem waitForResearch_bounded :
    ∀ poll, waitForResearch poll = waitForResearchSpec poll ∧
      ((∀ i, i < maxPollAttempts → isTerminalPoll (poll i) = false) →
        waitForResearch poll = timedOutResult) := by
  intro poll
  have h0 := pollLoop_eq_find poll maxPollAttempts 0 rfl
  have hrange : List.range maxPollAttempts = List.range' 0 maxPollAttempts :=
    List.range_eq_range' _
  constructor
  · rw [waitForResearch, h0, waitForResearchSpec, hrange]
    cases hf : (List.range' 0 maxPollAttempts).find? (fun j => isTerminalPoll (poll j)) with
    | none => rfl
    | some j =>
      simp only [Option.elim]
      unfold pollResolve
      cases poll j <;> rfl
  · intro hall
    rw [waitForResearch, h0]
    have hnone : (List.range' 0 maxPollAttempts).find?
        (fun j => isTerminalPoll (poll j)) = none := by
      rw [List.find?_eq_none]
      intro j hj
      have hjlt : j < maxPollAttempts := by
        have := List.mem_range'_1.mp hj
        omega
      simp [hall j hjlt]
    rw [hnone]; rfl

/-- Witness for C5: a provider that answers non-2xx forever makes the loop
return the timed-out result. -/
theorem waitForResearch_bounded_witness :
    waitForResearch (fun _ => PollResponse.notOk) = timedOutResult :=
  (waitForResearch_bounded (fun _ => PollResponse.notOk)).2 (fun _ _ => rfl)

theorem knownKeys_ci_nodup :
    (KNOWN_LOCATIONS.map (fun kv => jsToLower kv.1)).Nodup := by decide

/-- C6: a gazetteer hit (exact or case-insensitive) is answered from the
gazetteer entry alone — same coordinates and country for every fallback oracle,
hence deterministically and without any remote call — and the placeName is the
queried name (exact hit) or the canonical key (case-insensitive hit). The
second conjunct instantiates this at the entry for Tokyo. -/
theorem geocode_gazetteer_is_deterministic :
    (∀ (fallback : String → Option GeoLocation) (name k : String) (e : GazetteerEntry),
      KNOWN_LOCATIONS.find? (fun kv => kv.1 == k) = some (k, e) →
      jsToLower name = jsToLower k →
      ∃ pn, (pn = name ∨ pn = k) ∧
        geocodeLocation fallback name = some ⟨e.lat, e.lng, pn, some e.country, none⟩) ∧
    (∀ fallback, geocodeLocation fallback "Tokyo" =
      some ⟨35.6762, 139.6503, "Tokyo", some "Japan", none⟩) := by
  constructor
  · intro fallback name k e hfind hci
    have hmem : (k, e) ∈ KNOWN_LOCATIONS := List.mem_of_find?_eq_some hfind
    have hinj := List.inj_on_of_nodup_map knownKeys_ci_nodup
    unfold geocodeLocation
    cases hex : KNOWN_LOCATIONS.find? (fun kv => kv.1 == name) with
    | some kv =>
      have hkvmem : kv ∈ KNOWN_LOCATIONS := List.mem_of_find?_eq_some hex
      have hkvname : kv.1 = name := by
        have := List.find?_some hex
        simpa using this
      have hkveq : kv = (k, e) := by
        apply hinj hkvmem hmem
        simpa [hkvname] using hci
      refine ⟨name, Or.inl rfl, ?_⟩
      rw [hkveq]
    | none =>
      have hpred : (fun kv : String × GazetteerEntry =>
          jsToLower kv.1 == jsToLower name) (k, e) = true := by
        simp [hci]
      have hsome : (KNOWN_LOCATIONS.find? (fun kv =>
          jsToLower kv.1 == jsToLower name)).isSome := by
        rw [List.find?_isSome]
        exact ⟨(k, e), hmem, hpred⟩
      cases hcifind : KNOWN_LOCATIONS.find? (fun kv =>
          jsToLower kv.1 == jsToLower name) with
      | none => rw [hcifind] at hsome; simp at hsome
      | some kv =>
        have hkvmem : kv ∈ KNOWN_LOCATIONS := List.mem_of_find?_eq_some hcifind
        have hkvlow : jsToLower kv.1 = jsToLower name := by
          have := List.find?_some hcifind
          simpa using this
        have hkveq : kv = (k, e) := by
          apply hinj hkvmem hmem
          simp [hkvlow, hci]
        refine ⟨k, Or.inr rfl, ?_⟩
        rw [hkveq]
  · intro fallback
    rfl

/-- Witness for C6: the gazetteer answers the case-insensitive query TOKYO from
the Tokyo entry even when the remote fallback would say something else. -/
theorem geocode_gazetteer_witness :
    ∃ pn, (pn = "TOKYO" ∨ pn = "Tokyo") ∧
      geocodeLocation (fun _ => some ⟨0, 0, "Nowhere", none, none⟩) "TOKYO" =
        some ⟨35.6762, 139.6503, pn, some "Japan", none⟩ :=
  geocode_gazetteer_is_deterministic.1 _ "TOKYO" "Tokyo" ⟨35.6762, 139.6503, "Japan"⟩
    rfl (by decide)

theorem buildEvent_some {env : AssemblerEnv} {n : Nat} {r : RawResult} {e : ThreatEvent}
    (h : buildEvent env n r = some e) :
    isValidLocation e.location = true ∧ e.sourceUrl = r.url := by
  simp only [buildEvent] at h
  split at h
  · simp at h
  · split at h
    · rename_i hv
      cases h
      exact ⟨hv, rfl⟩
    · simp at h

theorem mem_buildEvents {env : AssemblerEnv} {e : ThreatEvent} :
    ∀ {n : Nat} {rs : List RawResult}, e ∈ buildEvents env n rs →
      ∃ r, r ∈ rs ∧ ∃ m, buildEvent env m r = some e := by
  intro n rs
  induction rs generalizing n with
  | nil => intro h; simp [buildEvents] at h
  | cons r rest ih =>
    intro h
    simp only [buildEvents] at h
    cases hb : buildEvent env n r with
    | none =>
      rw [hb] at h
      obtain ⟨r', hr', hm⟩ := ih h
      exact ⟨r', List.mem_cons_of_mem _ hr', hm⟩
    | some e0 =>
      rw [hb] at h
      cases h with
      | head => exact ⟨r, List.mem_cons_self .., n, hb⟩
      | tail _ h2 =>
        obtain ⟨r', hr', hm⟩ := ih h2
        exact ⟨r', List.mem_cons_of_mem _ hr', hm⟩

theorem mem_uniqueEvents_mem_valid {env : AssemblerEnv} {results : List RawResult}
    {e : ThreatEvent} (h : e ∈ uniqueEvents env results) :
    e ∈ validEvents env results := by
  simp only [uniqueEvents] at h
  obtain ⟨⟨i, a⟩, hmemf, rfl⟩ := List.mem_map.mp h
  have henum := (List.mem_filter.mp hmemf).1
  have hget := List.mk_mem_enum_iff_getElem?.mp henum
  exact List.getElem?_mem hget

theorem mem_process_source {env : AssemblerEnv} {results : List RawResult}
    {e : ThreatEvent} (h : e ∈ processSearchResults env results) :
    ∃ r, r ∈ uniqueResults results ∧ ∃ m, buildEvent env m r = some e := by
  simp only [processSearchResults, sortEvents] at h
  have h1 : e ∈ uniqueEvents env results :=
    (List.perm_insertionSort eventOrder (uniqueEvents env results)).mem_iff.mp h
  exact mem_buildEvents (mem_uniqueEvents_mem_valid h1)

/-- C3: every event in assembler output carries a location that passed the
`isValidLocation` check; results whose classification produced no location or
an invalid one were discarded before construction. -/
theorem assembler_locations_valid :
    ∀ env results e, e ∈ processSearchResults env results →
      isValidLocation e.location = true := by
  intro env results e h
  obtain ⟨r, _, m, hb⟩ := mem_process_source h
  exact (buildEvent_some hb).1

/-- The single-result batch used by assembler witnesses. -/
def wBatch : List RawResult := [⟨"alpha", "https://a.com/x", "c1", some 5, none⟩]

/-- The event the assembler produces for `wBatch` under `testEnv`. -/
def wEvent : ThreatEvent :=
  { id := "0", title := "alpha", summary := "c1", category := "conflict",
    threatLevel := "high", location := ⟨1, 2, "Paris", some "France", none⟩,
    timestamp := 5, source := "web", sourceUrl := "https://a.com/x",
    entities := [], keywords := [], rawContent := "c1" }

theorem wBatch_processes : processSearchResults testEnv wBatch = [wEvent] := rfl

/-- Witness for C3 at a concrete batch. -/
theorem assembler_locations_valid_witness :
    isValidLocation (⟨1, 2, "Paris", some "France", none⟩ : GeoLocation) = true :=
  assembler_locations_valid testEnv wBatch wEvent
    (by rw [wBatch_processes]; exact List.mem_cons_self ..)

theorem dedupByUrl_not_seen :
    ∀ (rs : List RawResult) (seen : List String) (r : RawResult),
      r ∈ dedupByUrl seen rs → seen.contains (normalizeUrl r.url) = false := by
  intro rs
  induction rs with
  | nil => intro seen r h; simp [dedupByUrl] at h
  | cons x rest ih =>
    intro seen r h
    simp only [dedupByUrl] at h
    by_cases hc : seen.contains (normalizeUrl x.url)
    · rw [if_pos hc] at h
      exact ih seen r h
    · rw [if_neg hc] at h
      cases h with
      | head => simpa using hc
      | tail _ h2 =>
        have := ih _ r h2
        simp only [List.contains_cons, Bool.or_eq_false_iff] at this
        exact this.2

theorem dedupByUrl_pairwise :
    ∀ (rs : List RawResult) (seen : List String),
      (dedupByUrl seen rs).Pairwise
        (fun a b => normalizeUrl a.url ≠ normalizeUrl b.url) := by
  intro rs
  induction rs with
  | nil => intro seen; simp [dedupByUrl]
  | cons x rest ih =>
    intro seen
    simp only [dedupByUrl]
    by_cases hc : seen.contains (normalizeUrl x.url)
    · rw [if_pos hc]; exact ih seen
    · rw [if_neg hc]
      refine List.Pairwise.cons ?_ (ih _)
      intro b hb
      have := dedupByUrl_not_seen rest _ b hb
      simp only [List.contains_cons, Bool.or_eq_false_iff] at this
      have hne : (normalizeUrl b.url == normalizeUrl x.url) = false := this.1
      intro heq
      rw [heq] at hne
      simp at hne

theorem dedupByUrl_first :
    ∀ (rs : List RawResult) (seen : List String) (r : RawResult),
      r ∈ dedupByUrl seen rs →
      rs.find? (fun x => normalizeUrl x.url == normalizeUrl r.url) = some r := by
  intro rs
  induction rs with
  | nil => intro seen r h; simp [dedupByUrl] at h
  | cons x rest ih =>
    intro seen r h
    simp only [dedupByUrl] at h
    by_cases hc : seen.contains (normalizeUrl x.url)
    · rw [if_pos hc] at h
      have hns := dedupByUrl_not_seen rest seen r h
      have hne : (normalizeUrl x.url == normalizeUrl r.url) = false := by
        rw [beq_eq_false_iff_ne]
        intro heq
        rw [heq, hns] at hc
        exact Bool.false_ne_true hc
      rw [List.find?_cons, hne]
      exact ih seen r h
    · rw [if_neg hc] at h
      cases h with
      | head =>
        have hx : (normalizeUrl x.url == normalizeUrl x.url) = true := by simp
        rw [List.find?_cons, hx]
      | tail _ h2 =>
        have hns := dedupByUrl_not_seen rest _ r h2
        simp only [List.contains_cons, Bool.or_eq_false_iff] at hns
        have hne : (normalizeUrl x.url == normalizeUrl r.url) = false := by
          rw [beq_eq_false_iff_ne]
          intro heq
          rw [heq] at hns
          simp at hns
        rw [List.find?_cons, hne]
        exact ih _ r h2

theorem buildEvents_pairwise_url {env : AssemblerEnv} :
    ∀ {rs : List RawResult} {n : Nat},
      rs.Pairwise (fun a b => normalizeUrl a.url ≠ normalizeUrl b.url) →
      (buildEvents env n rs).Pairwise
        (fun a b => normalizeUrl a.sourceUrl ≠ normalizeUrl b.sourceUrl) := by
  intro rs
  induction rs with
  | nil => intro n _; simp [buildEvents]
  | cons r rest ih =>
    intro n h
    obtain ⟨hhead, htail⟩ := List.pairwise_cons.mp h
    simp only [buildEvents]
    cases hb : buildEvent env n r with
    | none => exact ih htail
    | some e =>
      refine List.Pairwise.cons ?_ (ih htail)
      intro b hbmem
      obtain ⟨r', hr', m, hm⟩ := mem_buildEvents hbmem
      rw [(buildEvent_some hb).2, (buildEvent_some hm).2]
      exact hhead r' hr'

theorem uniqueEvents_sublist (env : AssemblerEnv) (results : List RawResult) :
    List.Sublist (uniqueEvents env results) (validEvents env results) := by
  simp only [uniqueEvents]
  have h1 : List.Sublist ((validEvents env results).enum.filter
      (fun p => (validEvents env results).findIdx
        (fun e => e.title == p.2.title) == p.1)) ((validEvents env results).enum) :=
    List.filter_sublist _
  have h2 := h1.map Prod.snd
  have h3 : (validEvents env results).enum.map Prod.snd = validEvents env results :=
    List.enumFrom_map_snd 0 _
  rw [h3] at h2
  exact h2

theorem enum_pairwise_fst_ne (l : List ThreatEvent) :
    l.enum.Pairwise (fun q q2 => q.1 ≠ q2.1) := by
  have h1 : (l.enum.map Prod.fst).Nodup := by
    have : l.enum.map Prod.fst = List.range' 0 l.length := List.enumFrom_map_fst 0 l
    rw [this]
    exact List.nodup_range' 0 l.length
  exact List.pairwise_map.mp h1

theorem uniqueEvents_pairwise_title (env : AssemblerEnv) (results : List RawResult) :
    (uniqueEvents env results).Pairwise (fun a b => a.title ≠ b.title) := by
  simp only [uniqueEvents]
  rw [List.pairwise_map]
  have hsub : List.Sublist
      ((validEvents env results).enum.filter
        (fun p => (validEvents env results).findIdx
          (fun e => e.title == p.2.title) == p.1))
      ((validEvents env results).enum) := List.filter_sublist _
  have hpw := List.Pairwise.sublist hsub (enum_pairwise_fst_ne (validEvents env results))
  refine List.Pairwise.imp_of_mem ?_ hpw
  intro q q2 hq hq2 hne hteq
  apply hne
  have hp1 : (validEvents env results).findIdx (fun e => e.title == q.2.title) = q.1 := by
    simpa using (List.mem_filter.mp hq).2
  have hp2 : (validEvents env results).findIdx (fun e => e.title == q2.2.title) = q2.1 := by
    simpa using (List.mem_filter.mp hq2).2
  rw [← hp1, ← hp2]
  have hfun : (fun e : ThreatEvent => e.title == q.2.title) =
      (fun e : ThreatEvent => e.title == q2.2.title) := by
    funext e; rw [hteq]
  rw [hfun]

theorem find?_of_findIdx {α : Type} {p : α → Bool} :
    ∀ (l : List α) (i : Nat) (h : i < l.length),
      l.findIdx p = i → l.find? p = some (l.get ⟨i, h⟩) := by
  intro l
  induction l with
  | nil => intro i h; simp at h
  | cons a t ih =>
    intro i h hidx
    rw [List.findIdx_cons] at hidx
    by_cases hp : p a
    · rw [hp] at hidx
      simp only [cond_true] at hidx
      subst hidx
      rw [List.find?_cons, hp]
      rfl
    · have hpf : p a = false := by simpa using hp
      rw [hpf] at hidx
      simp only [cond_false] at hidx
      cases i with
      | zero => omega
      | succ j =>
        rw [List.find?_cons, hpf]
        have hj : t.findIdx p = j := by omega
        have hjl : j < t.length := by simpa using h
        rw [ih j hjl hj]
        rfl

theorem uniqueEvents_first_title {env : AssemblerEnv} {results : List RawResult}
    {e : ThreatEvent} (h : e ∈ uniqueEvents env results) :
    (validEvents env results).find? (fun x => x.title == e.title) = some e := by
  simp only [uniqueEvents] at h
  obtain ⟨⟨i, a⟩, hmemf, rfl⟩ := List.mem_map.mp h
  obtain ⟨henum, hp⟩ := List.mem_filter.mp hmemf
  have hget : (validEvents env results)[i]? = some a :=
    List.mk_mem_enum_iff_getElem?.mp henum
  rw [List.getElem?_eq_some] at hget
  obtain ⟨hlt, hval⟩ := hget
  have hidx : (validEvents env results).findIdx (fun e => e.title == a.title) = i := by
    simpa using hp
  have hfin := find?_of_findIdx (validEvents env results) i hlt hidx
  have hgeta : (validEvents env results).get ⟨i, hlt⟩ = a := by
    simpa [List.get_eq_getElem] using hval
  rw [hgeta] at hfin
  exact hfin

/-- C2: assembler output has pairwise distinct normalized source URLs and
pairwise distinct titles, and each deduplication keeps the first occurrence in
batch order: every output event stems from the first pre-filtered result
carrying its normalized URL, and is the first constructed event carrying its
title. -/
theorem assembler_dedup :
    (∀ env results, (processSearchResults env results).Pairwise
      (fun a b => normalizeUrl a.sourceUrl ≠ normalizeUrl b.sourceUrl)) ∧
    (∀ env results, (processSearchResults env results).Pairwise
      (fun a b => a.title ≠ b.title)) ∧
    (∀ env results e, e ∈ processSearchResults env results →
      ∃ r, (preFiltered results).find?
          (fun x => normalizeUrl x.url == normalizeUrl e.sourceUrl) = some r ∧
        e.sourceUrl = r.url) ∧
    (∀ env results e, e ∈ processSearchResults env results →
      (validEvents env results).find? (fun x => x.title == e.title) = some e) := by
  have hmemuniq : ∀ (env : AssemblerEnv) (results : List RawResult) (e : ThreatEvent),
      e ∈ processSearchResults env results → e ∈ uniqueEvents env results := by
    intro env results e h
    simp only [processSearchResults, sortEvents] at h
    exact (List.perm_insertionSort eventOrder (uniqueEvents env results)).mem_iff.mp h
  refine ⟨?_, ?_, ?_, ?_⟩
  · intro env results
    have h1 := dedupByUrl_pairwise (preFiltered results) []
    have h2 := @buildEvents_pairwise_url env (uniqueResults results) 0 h1
    have h3 := List.Pairwise.sublist (uniqueEvents_sublist env results) h2
    have hperm := List.perm_insertionSort eventOrder (uniqueEvents env results)
    exact (hperm.pairwise_iff (fun h => h.symm)).mpr h3
  · intro env results
    have h3 := uniqueEvents_pairwise_title env results
    have hperm := List.perm_insertionSort eventOrder (uniqueEvents env results)
    exact (hperm.pairwise_iff (fun h => h.symm)).mpr h3
  · intro env results e h
    obtain ⟨r, hr, m, hb⟩ := mem_process_source h
    have hu := (buildEvent_some hb).2
    refine ⟨r, ?_, hu⟩
    have hfirst := dedupByUrl_first (preFiltered results) [] r hr
    rw [hu]
    exact hfirst
  · intro env results e h
    exact uniqueEvents_first_title (hmemuniq env results e h)

/-- Witness for C2 at a concrete batch: the produced event is the first
pre-filtered result with its normalized URL. -/
theorem assembler_dedup_witness :
    ∃ r, (preFiltered wBatch).find?
        (fun x => normalizeUrl x.url == normalizeUrl wEvent.sourceUrl) = some r ∧
      wEvent.sourceUrl = r.url :=
  assembler_dedup.2.2.1 testEnv wBatch wEvent
    (by rw [wBatch_processes]; exact List.mem_cons_self ..)

/-- A chunk that ends the stream. -/
def isTerminalChunk (c : ConflictStreamChunk) : Bool :=
  c.type == "done" || c.type == "error"

/-- A phase-one chunk. -/
def isCurrentChunk (c : ConflictStreamChunk) : Bool :=
  c.type == "current_content" || c.type == "current_sources"

/-- A phase-two chunk. -/
def isPastChunk (c : ConflictStreamChunk) : Bool :=
  c.type == "past_content" || c.type == "past_sources"

theorem chunk_types_proxy (r : ProxyAnswer) (tc ts : String) (c : ConflictStreamChunk)
    (hc : c ∈ proxyPhaseChunks r tc ts) : c.type = tc ∨ c.type = ts := by
  simp only [proxyPhaseChunks] at hc
  split at hc
  · split at hc
    · rw [List.mem_append] at hc
      rcases hc with h1 | h2
      · split at h1
        · split at h1
          · simp at h1
          · simp at h1
            subst h1
            exact Or.inl rfl
        · simp at h1
      · split at h2
        · simp at h2
          subst h2
          exact Or.inr rfl
        · simp at h2
    · simp at hc
  · simp at hc

theorem chunk_types_self (tc ts : String) (o : AnswerOutcome) (c : ConflictStreamChunk)
    (hc : c ∈ (selfPhaseChunks tc ts o).1) : c.type = tc ∨ c.type = ts := by
  cases o with
  | notIterable => simp [selfPhaseChunks] at hc
  | chunks cs throws =>
    simp only [selfPhaseChunks] at hc
    rw [List.mem_filterMap] at hc
    obtain ⟨x, _, hx⟩ := hc
    simp only [translateChunk] at hx
    split at hx
    · cases hx
      exact Or.inl rfl
    · split at hx
      · cases hx
        exact Or.inr rfl
      · simp at hx

theorem stream_shape_ok (q1 q2 : List ConflictStreamChunk) (t : ConflictStreamChunk)
    (h1 : ∀ c ∈ q1, c.type = "current_content" ∨ c.type = "current_sources")
    (h2 : ∀ c ∈ q2, c.type = "past_content" ∨ c.type = "past_sources")
    (ht : isTerminalChunk t = true) (htc : isCurrentChunk t = false) :
    ((q1 ++ q2 ++ [t]).countP isTerminalChunk = 1) ∧
    ((q1 ++ q2 ++ [t]).getLast? = some t) ∧
    ((q1 ++ q2 ++ [t]).Pairwise
      (fun a b => ¬(isPastChunk a = true ∧ isCurrentChunk b = true))) ∧
    (∀ u : String, (u == "done" || u == "error") = true →
      (q1 ++ q2 ++ [t]).countP (fun c => c.type == u) =
        if t.type == u then 1 else 0) := by
  have hq1flags : ∀ c ∈ q1, isTerminalChunk c = false ∧ isPastChunk c = false := by
    intro c hc
    rcases h1 c hc with h | h <;> simp [isTerminalChunk, isPastChunk, h]
  have hq2flags : ∀ c ∈ q2, isTerminalChunk c = false ∧ isCurrentChunk c = false := by
    intro c hc
    rcases h2 c hc with h | h <;> simp [isTerminalChunk, isCurrentChunk, h]
  refine ⟨?_, ?_, ?_, ?_⟩
  · rw [List.countP_append, List.countP_append]
    have z1 : q1.countP isTerminalChunk = 0 :=
      List.countP_eq_zero.mpr (fun a ha => by simp [(hq1flags a ha).1])
    have z2 : q2.countP isTerminalChunk = 0 :=
      List.countP_eq_zero.mpr (fun a ha => by simp [(hq2flags a ha).1])
    have z3 : List.countP isTerminalChunk [t] = 1 := by
      simp [List.countP_cons, ht]
    omega
  · exact List.getLast?_concat _
  · rw [List.append_assoc]
    rw [List.pairwise_append]
    refine ⟨?_, ?_, ?_⟩
    · apply List.pairwise_of_forall_mem_list
      intro a ha b _ hcon
      rw [(hq1flags a ha).2] at hcon
      exact Bool.false_ne_true hcon.1
    · rw [List.pairwise_append]
      refine ⟨?_, ?_, ?_⟩
      · apply List.pairwise_of_forall_mem_list
        intro a _ b hb hcon
        rw [(hq2flags b hb).2] at hcon
        exact Bool.false_ne_true hcon.2
      · apply List.pairwise_of_forall_mem_list
        intro a ha b hb hcon
        rw [List.mem_singleton.mp hb] at hcon
        rw [htc] at hcon
        exact Bool.false_ne_true hcon.2
      · intro a _ b hb hcon
        rw [List.mem_singleton.mp hb] at hcon
        rw [htc] at hcon
        exact Bool.false_ne_true hcon.2
    · intro a ha b _ hcon
      rw [(hq1flags a ha).2] at hcon
      exact Bool.false_ne_true hcon.1
  · intro u hu
    have huor : u = "done" ∨ u = "error" := by
      rcases Bool.or_eq_true_iff.mp hu with h | h
      · exact Or.inl (by simpa using h)
      · exact Or.inr (by simpa using h)
    rw [List.countP_append, List.countP_append]
    have z1 : q1.countP (fun c => c.type == u) = 0 := by
      rw [List.countP_eq_zero]
      intro a ha
      rcases h1 a ha with h | h <;> rcases huor with hu2 | hu2 <;> simp [h, hu2]
    have z2 : q2.countP (fun c => c.type == u) = 0 := by
      rw [List.countP_eq_zero]
      intro a ha
      rcases h2 a ha with h | h <;> rcases huor with hu2 | hu2 <;> simp [h, hu2]
    have z3 : List.countP (fun c => c.type == u) [t] = if t.type == u then 1 else 0 := by
      simp [List.countP_cons]
    rw [z1, z2, z3]
    simp

/-- C4: both relay modes emit exactly one terminal chunk, it is the final
chunk of the stream (always `done` in proxy mode), and no current-phase chunk
ever follows a past-phase chunk — for every provider behaviour. -/
theorem conflict_stream_terminal_and_phased :
    (∀ cur past, ((streamCountryConflictsProxy cur past).countP isTerminalChunk = 1) ∧
      ((streamCountryConflictsProxy cur past).getLast? = some doneChunk) ∧
      ((streamCountryConflictsProxy cur past).Pairwise
        (fun a b => ¬(isPastChunk a = true ∧ isCurrentChunk b = true)))) ∧
    (∀ cur past msg,
      ((streamCountryConflictsSelf cur past msg).countP isTerminalChunk = 1) ∧
      (∃ t, (streamCountryConflictsSelf cur past msg).getLast? = some t ∧
        isTerminalChunk t = true) ∧
      ((streamCountryConflictsSelf cur past msg).Pairwise
        (fun a b => ¬(isPastChunk a = true ∧ isCurrentChunk b = true)))) := by
  constructor
  · intro cur past
    have hs := stream_shape_ok
      (proxyPhaseChunks cur "current_content" "current_sources")
      (proxyPhaseChunks past "past_content" "past_sources") doneChunk
      (fun c hc => chunk_types_proxy _ _ _ c hc)
      (fun c hc => chunk_types_proxy _ _ _ c hc) rfl rfl
    exact ⟨hs.1, hs.2.1, hs.2.2.1⟩
  · intro cur past msg
    cases ht1 : (selfPhaseChunks "current_content" "current_sources" cur).2 with
    | true =>
      have hs := stream_shape_ok
        (selfPhaseChunks "current_content" "current_sources" cur).1 [] (errorChunk msg)
        (fun c hc => chunk_types_self _ _ _ c hc)
        (fun c hc => absurd hc (List.not_mem_nil c)) rfl rfl
      rw [List.append_nil] at hs
      simp only [streamCountryConflictsSelf, ht1, if_true]
      exact ⟨hs.1, ⟨errorChunk msg, hs.2.1, rfl⟩, hs.2.2.1⟩
    | false =>
      cases ht2 : (selfPhaseChunks "past_content" "past_sources" past).2 with
      | true =>
        have hs := stream_shape_ok
          (selfPhaseChunks "current_content" "current_sources" cur).1
          (selfPhaseChunks "past_content" "past_sources" past).1 (errorChunk msg)
          (fun c hc => chunk_types_self _ _ _ c hc)
          (fun c hc => chunk_types_self _ _ _ c hc) rfl rfl
        simp only [streamCountryConflictsSelf, ht1, ht2, if_true, Bool.false_eq_true,
          if_false]
        exact ⟨hs.1, ⟨errorChunk msg, hs.2.1, rfl⟩, hs.2.2.1⟩
      | false =>
        have hs := stream_shape_ok
          (selfPhaseChunks "current_content" "current_sources" cur).1
          (selfPhaseChunks "past_content" "past_sources" past).1 doneChunk
          (fun c hc => chunk_types_self _ _ _ c hc)
          (fun c hc => chunk_types_self _ _ _ c hc) rfl rfl
        simp only [streamCountryConflictsSelf, ht1, ht2, Bool.false_eq_true, if_false]
        exact ⟨hs.1, ⟨doneChunk, hs.2.1, rfl⟩, hs.2.2.1⟩

/-- Counterexample to C7 as stated: in proxy mode a failed provider call is
reported through `success = false`, which `callViaProxy` returns instead of
throwing; the relay silently skips the phase and the stream still ends with
`done` and contains no `error` chunk. -/
theorem conflict_stream_failure_counterexample :
    streamCountryConflictsProxy ⟨false, none⟩ ⟨false, none⟩ = [doneChunk] ∧
    (streamCountryConflictsProxy ⟨false, none⟩ ⟨false, none⟩).countP
      (fun c => c.type == "error") = 0 := by
  constructor <;> rfl

/-- C7 amended: only a thrown exception produces the error terminal. In
self-hosted mode a phase that throws yields exactly one `error` chunk, as the
final chunk, and no `done` chunk; in proxy mode provider failures are absorbed
by `callViaProxy`, so the stream always ends with `done` and never carries an
`error` chunk. -/
theorem conflict_stream_error_semantics :
    (∀ cur past msg,
      ((selfPhaseChunks "current_content" "current_sources" cur).2 = true ∨
        (selfPhaseChunks "past_content" "past_sources" past).2 = true) →
      ((streamCountryConflictsSelf cur past msg).getLast? = some (errorChunk msg)) ∧
      ((streamCountryConflictsSelf cur past msg).countP
        (fun c => c.type == "error") = 1) ∧
      ((streamCountryConflictsSelf cur past msg).countP
        (fun c => c.type == "done") = 0)) ∧
    (∀ cur past, ((streamCountryConflictsProxy cur past).getLast? = some doneChunk) ∧
      ((streamCountryConflictsProxy cur past).countP
        (fun c => c.type == "error") = 0)) := by
  constructor
  · intro cur past msg hthrow
    cases ht1 : (selfPhaseChunks "current_content" "current_sources" cur).2 with
    | true =>
      have hs := stream_shape_ok
        (selfPhaseChunks "current_content" "current_sources" cur).1 [] (errorChunk msg)
        (fun c hc => chunk_types_self _ _ _ c hc)
        (fun c hc => absurd hc (List.not_mem_nil c)) rfl rfl
      rw [List.append_nil] at hs
      simp only [streamCountryConflictsSelf, ht1, if_true]
      exact ⟨hs.2.1, hs.2.2.2 "error" rfl, hs.2.2.2 "done" rfl⟩
    | false =>
      have ht2 : (selfPhaseChunks "past_content" "past_sources" past).2 = true := by
        rcases hthrow with h | h
        · rw [ht1] at h; exact absurd h (by simp)
        · exact h
      have hs := stream_shape_ok
        (selfPhaseChunks "current_content" "current_sources" cur).1
        (selfPhaseChunks "past_content" "past_sources" past).1 (errorChunk msg)
        (fun c hc => chunk_types_self _ _ _ c hc)
        (fun c hc => chunk_types_self _ _ _ c hc) rfl rfl
      simp only [streamCountryConflictsSelf, ht1, ht2, if_true, Bool.false_eq_true,
        if_false]
      exact ⟨hs.2.1, hs.2.2.2 "error" rfl, hs.2.2.2 "done" rfl⟩
  · intro cur past
    have hs := stream_shape_ok
      (proxyPhaseChunks cur "current_content" "current_sources")
      (proxyPhaseChunks past "past_content" "past_sources") doneChunk
      (fun c hc => chunk_types_proxy _ _ _ c hc)
      (fun c hc => chunk_types_proxy _ _ _ c hc) rfl rfl
    exact ⟨hs.2.1, hs.2.2.2 "error" rfl⟩

/-- Witness for the amended C7: a current phase that rejects immediately ends
the self-hosted stream with a single error chunk. -/
theorem conflict_stream_error_semantics_witness :
    (streamCountryConflictsSelf (.chunks [] true) (.chunks [] false) "boom").getLast? =
      some (errorChunk "boom") :=
  (conflict_stream_error_semantics.1 (.chunks [] true) (.chunks [] false) "boom"
    (Or.inl rfl)).1

theorem setDedup_subset :
    ∀ (l : List String) (seen : List String) (x : String), x ∈ setDedup seen l → x ∈ l := by
  intro l
  induction l with
  | nil => intro seen x h; simp [setDedup] at h
  | cons a t ih =>
    intro seen x h
    simp only [setDedup] at h
    by_cases hc : seen.contains a
    · rw [if_pos hc] at h
      exact List.mem_cons_of_mem _ (ih seen x h)
    · rw [if_neg hc] at h
      cases h with
      | head => exact List.mem_cons_self ..
      | tail _ h2 => exact List.mem_cons_of_mem _ (ih _ x h2)

/-- Counterexample to C8 as stated: the gazetteer scan adds matched keys
without any filtering, so the two-character all-caps candidate UK is returned
for the text UK. (None of the seven `LOCATION_PATTERNS` regexes can match the
bare text UK — they all require a comma, a keyword, or a preposition — so the
pattern oracle is the empty extractor here.) -/
theorem extract_locations_filter_counterexample :
    extractLocationsFromText (fun _ => []) "UK" = ["UK"] ∧
    ("UK".length < 3 ∧ "UK".length ≤ 4 ∧ jsToUpper "UK" = "UK") := by decide

/-- C8 amended: every candidate returned by the extractor either is a
gazetteer key found in the text by the word-boundary scan — these bypass the
filters and may be short or all-caps — or is a pattern-extracted candidate that
passed the blacklist, the minimum length 3, and the all-caps-at-most-4 filter. -/
theorem extract_locations_filtered :
    ∀ pc text c, c ∈ extractLocationsFromText pc text →
      (c ∈ KNOWN_LOCATIONS.map Prod.fst ∧ knownLocationMatches c text = true) ∨
        passesCandidateFilter c = true := by
  intro pc text c h
  simp only [extractLocationsFromText] at h
  have h2 := setDedup_subset _ _ _ h
  rw [List.mem_append] at h2
  rcases h2 with h3 | h3
  · obtain ⟨hm, hf⟩ := List.mem_filter.mp h3
    exact Or.inl ⟨hm, hf⟩
  · exact Or.inr (List.mem_filter.mp h3).2

/-- Witness for the amended C8, at the text UK where only the gazetteer scan
fires. -/
theorem extract_locations_filtered_witness :
    ("UK" ∈ KNOWN_LOCATIONS.map Prod.fst ∧ knownLocationMatches "UK" "UK" = true) ∨
      passesCandidateFilter "UK" = true :=
  extract_locations_filtered (fun _ => []) "UK" "UK" (by decide)

/-- The location every name geocodes to in the C9 counterexample: a remote
geocoder may resolve distinct query names to the same place. -/
def germanyLoc : GeoLocation := ⟨50.73, 7.09, "Germany", some "Germany", none⟩

/-- Counterexample to C9 as stated: on the text `from Bonn throughout Kiel`
the preposition pattern extracts the two candidates Bonn and Kiel (no other
pattern and no gazetteer key matches), both miss the gazetteer, and a remote
geocoder that resolves both to Germany produces two entries with the same
placeName — so the output is not deduplicated by case-insensitive placeName. -/
theorem resolve_from_text_dedup_counterexample :
    geocodeLocationsFromText (fun _ => ["Bonn", "Kiel"]) none (fun _ => some germanyLoc)
        "from Bonn throughout Kiel" none 3 = [germanyLoc, germanyLoc] ∧
    ¬ (geocodeLocationsFromText (fun _ => ["Bonn", "Kiel"]) none (fun _ => some germanyLoc)
        "from Bonn throughout Kiel" none 3).Pairwise
      (fun a b => jsToLower a.placeName ≠ jsToLower b.placeName) := by
  constructor
  · rfl
  · intro h
    rw [show geocodeLocationsFromText (fun _ => ["Bonn", "Kiel"]) none
        (fun _ => some germanyLoc) "from Bonn throughout Kiel" none 3 =
        [germanyLoc, germanyLoc] from rfl] at h
    exact (List.pairwise_cons.mp h).1 germanyLoc (List.mem_cons_self ..) rfl

theorem gazetteer_placeName_ci {name : String} {g : GeoLocation}
    (h : geocodeLocation (fun _ => none) name = some g) :
    jsToLower g.placeName = jsToLower name := by
  unfold geocodeLocation at h
  split at h
  · cases h
    rfl
  · split at h
    · rename_i kv hfind
      cases h
      have := List.find?_some hfind
      simpa using this
    · simp at h

theorem buildLocationNames_ci_pairwise :
    ∀ (cands : List String) (acc : List String) (maxL : Nat),
      acc.Pairwise (fun a b => jsToLower a ≠ jsToLower b) →
      (buildLocationNames acc maxL cands).Pairwise
        (fun a b => jsToLower a ≠ jsToLower b) := by
  intro cands
  induction cands with
  | nil => intro acc maxL h; simpa [buildLocationNames] using h
  | cons c cs ih =>
    intro acc maxL h
    simp only [buildLocationNames]
    by_cases hd : acc.any (fun l => jsToLower l == jsToLower c)
    · rw [if_pos hd]
      by_cases hm : maxL ≤ acc.length
      · rw [if_pos hm]; exact h
      · rw [if_neg hm]; exact ih acc maxL h
    · rw [if_neg hd]
      have hdf : acc.any (fun l => jsToLower l == jsToLower c) = false := by
        simpa using hd
      have hall : ∀ a ∈ acc, jsToLower a ≠ jsToLower c := by
        intro a ha
        simpa using List.any_eq_false.mp hdf a ha
      have hacc2 : (acc ++ [c]).Pairwise (fun a b => jsToLower a ≠ jsToLower b) := by
        rw [List.pairwise_append]
        exact ⟨h, List.pairwise_singleton _ _,
          fun a ha b hb => by rw [List.mem_singleton.mp hb]; exact hall a ha⟩
      by_cases hm : maxL ≤ (acc ++ [c]).length
      · rw [if_pos hm]; exact hacc2
      · rw [if_neg hm]; exact ih _ maxL hacc2

/-- C9 amended: the result has at most `maxLocations` entries, and the names
actually geocoded are pairwise case-insensitively distinct; when every
successful geocode is answered by the static gazetteer (remote fallback
unavailable), the returned entries also have pairwise case-insensitively
distinct placeNames. A remote fallback can map distinct names to one place, so
the placeName dedup does not hold for arbitrary provider behaviour. -/
theorem resolve_from_text_bounded_dedup :
    (∀ pc ai fb text title maxL,
      (geocodeLocationsFromText pc ai fb text title maxL).length ≤ maxL) ∧
    (∀ cands acc maxL,
      acc.Pairwise (fun a b => jsToLower a ≠ jsToLower b) →
      (buildLocationNames acc maxL cands).Pairwise
        (fun a b => jsToLower a ≠ jsToLower b)) ∧
    (∀ pc ai text title maxL,
      (geocodeLocationsFromText pc ai (fun _ => none) text title maxL).Pairwise
        (fun a b => jsToLower a.placeName ≠ jsToLower b.placeName)) := by
  refine ⟨?_, buildLocationNames_ci_pairwise, ?_⟩
  · intro pc ai fb text title maxL
    simp only [geocodeLocationsFromText]
    calc (((buildLocationNames _ maxL _).take maxL).filterMap
            (geocodeLocation fb)).length
        ≤ ((buildLocationNames _ maxL _).take maxL).length :=
          List.length_filterMap_le _ _
      _ ≤ maxL := List.length_take_le _ _
  · intro pc ai text title maxL
    simp only [geocodeLocationsFromText]
    have hnames0 : ∀ (o : Option String),
        (match o with
          | some p => [p]
          | none => ([] : List String)).Pairwise
          (fun a b => jsToLower a ≠ jsToLower b) := by
      intro o
      cases o
      · exact List.Pairwise.nil
      · exact List.pairwise_singleton _ _
    have hnames := buildLocationNames_ci_pairwise (extractLocationsFromText pc text) _
      maxL (hnames0 (primaryOf ai title))
    have htake := List.Pairwise.sublist (List.take_sublist maxL _) hnames
    rw [List.pairwise_filterMap]
    refine List.Pairwise.imp ?_ htake
    intro n1 n2 hne g1 hg1 g2 hg2
    rw [Option.mem_def] at hg1 hg2
    rw [gazetteer_placeName_ci hg1, gazetteer_placeName_ci hg2]
    exact hne

/-- Witness for the amended C9: gazetteer-only resolution of the text
`Ukraine Kyiv` returns two entries with distinct case-insensitive placeNames. -/
theorem resolve_from_text_bounded_dedup_witness :
    (buildLocationNames [] 3 ["Ukraine", "Kyiv"]).Pairwise
      (fun a b => jsToLower a ≠ jsToLower b) :=
  resolve_from_text_bounded_dedup.2.1 ["Ukraine", "Kyiv"] [] 3 List.Pairwise.nil
